import Mathlib

set_option autoImplicit false

/-!
Shallow embedding of the tour-diary bot (src/main.py) for checking the
natural-language specification. Python strings are Lean `String`,
Python dicts are association lists with unique keys, MongoDB field
updates are modelled as pure transformations of those association
lists, and wall-clock dates are `PDate` values. Randomness
(`random.choice`) is modelled by passing the chooser as a function
argument. Source locations are given as `main.py:<lines>` in the doc
comments.
-/

/-! ## Python string primitives -/

/-- Python `str.title()` for ASCII text (main.py uses it to normalize
village and headquarters names): an alphabetic character is uppercased
when the previous character is not alphabetic and lowercased
otherwise. -/
def pyTitleChars : List Char → Bool → List Char
  | [], _ => []
  | c :: t, prevAlpha =>
    (if c.isAlpha then (if prevAlpha then c.toLower else c.toUpper) else c)
      :: pyTitleChars t c.isAlpha

/-- Python `str.title()` on a whole string. -/
def pyTitle (s : String) : String := ⟨pyTitleChars s.toList false⟩

/-- Python `str.lower()` for ASCII text. -/
def pyLower (s : String) : String := ⟨s.toList.map Char.toLower⟩

/-- Python whitespace as used by `str.strip()` with no argument. -/
def isPySpace (c : Char) : Bool :=
  c = ' ' || c = '\t' || c = '\n' || c = '\r' || c = '\x0b' || c = '\x0c'

/-- Python `str.strip()`: drop whitespace from both ends. -/
def pyStrip (s : String) : String :=
  ⟨((s.toList.dropWhile isPySpace).reverse.dropWhile isPySpace).reverse⟩

/-- Containment of one character list in another, as Python `needle in hay`. -/
def listStarts : List Char → List Char → Bool
  | [], _ => true
  | _ :: _, [] => false
  | a :: as, b :: bs => a = b && listStarts as bs

/-- Substring test used for the Python expression `"leave" in to_val_lower`. -/
def listHasSub (needle : List Char) : List Char → Bool
  | [] => listStarts needle []
  | c :: t => listStarts needle (c :: t) || listHasSub needle t

/-- Python `needle in hay` on strings. -/
def strHasSub (needle hay : String) : Bool := listHasSub needle.toList hay.toList

/-! ## Association lists (Python dict / MongoDB subdocument model) -/

/-- Lookup of a key in an association list (first matching entry, as in a
Python dict, whose keys are unique). -/
def lookupKey {κ α : Type} [DecidableEq κ] : List (κ × α) → κ → Option α
  | [], _ => none
  | (k, v) :: t, k0 => if k = k0 then some v else lookupKey t k0

/-- Setting a key in an association list: replace the first entry in place
when the key is present, append a new entry otherwise. This matches both
Python dict assignment and a MongoDB dotted-path `$set`/`$push` that
creates missing subdocuments. -/
def setKey {κ α : Type} [DecidableEq κ] : List (κ × α) → κ → α → List (κ × α)
  | [], k0, v0 => [(k0, v0)]
  | (k, v) :: t, k0, v0 =>
    if k = k0 then (k0, v0) :: t else (k, v) :: setKey t k0 v0

/-- Deleting a key from an association list, as Python `del d[k]`. -/
def eraseKey {κ α : Type} [DecidableEq κ] : List (κ × α) → κ → List (κ × α)
  | [], _ => []
  | (k, v) :: t, k0 => if k = k0 then t else (k, v) :: eraseKey t k0

/-- Python `set.add` on a list model of a set: insert when absent. -/
def setAdd {α : Type} [DecidableEq α] (l : List α) (a : α) : List α :=
  if a ∈ l then l else l ++ [a]

/-! ## Calendar dates -/

/-- A calendar date as a day/month/year triple (a Python `datetime.date`). -/
structure PDate where
  d : Nat
  m : Nat
  y : Nat
deriving DecidableEq, Repr

/-- Gregorian leap-year rule. -/
def isLeap (y : Nat) : Bool := (y % 4 == 0 && y % 100 != 0) || y % 400 == 0

/-- Number of days in a month of a given year. -/
def daysInMonth (m y : Nat) : Nat :=
  if m = 2 then (if isLeap y then 29 else 28)
  else if m = 4 ∨ m = 6 ∨ m = 9 ∨ m = 11 then 30 else 31

/-- Days in all years strictly before year `y` (proleptic Gregorian). -/
def daysBeforeYear (y : Nat) : Nat :=
  365 * (y - 1) + (y - 1) / 4 + (y - 1) / 400 - (y - 1) / 100

/-- Days in the months of year `y` strictly before month `m`. -/
def daysBeforeMonth (m y : Nat) : Nat :=
  ((List.range (m - 1)).map (fun i => daysInMonth (i + 1) y)).sum

/-- Rata die day number; `rataDie ⟨1, 1, 1⟩ = 1`. -/
def rataDie (dt : PDate) : Nat := daysBeforeYear dt.y + daysBeforeMonth dt.m dt.y + dt.d

/-- Python `date.weekday()`: Monday is 0, Sunday is 6. Validated against
known dates (for example 14/06/2025 is a Saturday, value 5). -/
def pyWeekday (dt : PDate) : Nat := (rataDie dt + 6) % 7

/-- Day of month of the second Saturday, exactly as computed at
main.py:1525-1528 and main.py:1749-1753: the first day of the month plus
`(5 - weekday) % 7` days is the first Saturday, plus seven more days.
Both offsets stay inside the month, so only the day component moves. -/
def secondSaturdayDay (m y : Nat) : Nat :=
  (1 + (5 + 7 - pyWeekday ⟨1, m, y⟩) % 7) + 7

/-- Value of a digit string. -/
def digitsToNat (l : List Char) : Nat := l.foldl (fun acc c => acc * 10 + (c.toNat - 48)) 0

/-- Splitting of a character list at every slash, the effect of Python
`s.split("/")` as done by `strptime` on the format "%d/%m/%Y". -/
def splitSlashAux : List Char → List Char → List (List Char)
  | [], acc => [acc.reverse]
  | c :: t, acc =>
    if c = '/' then acc.reverse :: splitSlashAux t []
    else splitSlashAux t (c :: acc)

/-- One numeric field of `strptime` with one or two digits and an allowed
range, as the CPython patterns for day (1-31) and month (1-12). -/
def parseField2 (cs : List Char) (lo hi : Nat) : Option Nat :=
  if cs ≠ [] ∧ cs.length ≤ 2 ∧ cs.all Char.isDigit then
    if lo ≤ digitsToNat cs ∧ digitsToNat cs ≤ hi then some (digitsToNat cs) else none
  else none

/-- The four-digit year field of `strptime` (`%Y`). -/
def parseYear4 (cs : List Char) : Option Nat :=
  if cs.length = 4 ∧ cs.all Char.isDigit then some (digitsToNat cs) else none

/-- Python `datetime.strptime(s, "%d/%m/%Y")` together with the validity
check done by the `datetime` constructor (day within the month, year at
least 1). Returns `none` where the Python call raises `ValueError`. -/
def parseDMY (s : String) : Option PDate :=
  match splitSlashAux s.toList [] with
  | [ds, ms, ys] =>
    match parseField2 ds 1 31, parseField2 ms 1 12, parseYear4 ys with
    | some d, some m, some y =>
      if 1 ≤ y ∧ d ≤ daysInMonth m y then some ⟨d, m, y⟩ else none
    | _, _, _ => none
  | _ => none

/-- Zero-padded two-digit rendering, as `strftime` field formatting. -/
def pad2 (n : Nat) : String := if n < 10 then "0" ++ toString n else toString n

/-- Zero-padded four-digit rendering for years. -/
def pad4 (n : Nat) : String :=
  if n < 10 then "000" ++ toString n
  else if n < 100 then "00" ++ toString n
  else if n < 1000 then "0" ++ toString n
  else toString n

/-- Python `strftime("%d/%m/%Y")`. -/
def fmtDMY (dt : PDate) : String := pad2 dt.d ++ "/" ++ pad2 dt.m ++ "/" ++ pad4 dt.y

/-- Python `strftime("%Y-%m-%d")`, used for the daily-prompt dedup key. -/
def fmtYMD (dt : PDate) : String := pad4 dt.y ++ "-" ++ pad2 dt.m ++ "-" ++ pad2 dt.d

/-- Sort key used when ordering activities by date: the encoded value of
the parsed date. Unparseable dates raise in Python; theorems that touch
the sort assume every date parses, so the default 0 is never relevant. -/
def dateVal (date : String) : Nat :=
  match parseDMY date with
  | some dt => dt.y * 10000 + dt.m * 100 + dt.d
  | none => 0

/-! ## Activity data model -/

/-- One stored activity record, the document pushed at main.py:765-770
and main.py:872-877. -/
structure Activity where
  date : String
  from_ : String
  to_village : String
  purpose : String
deriving DecidableEq, Repr

/-- The month level of the nested activities structure: month label
(rendered month number) to list of activities. -/
abbrev MonthBuckets := List (String × List Activity)

/-- The nested activities structure keyed by year label then month label,
as produced by the migration at main.py:3780-3803. -/
abbrev Acts := List (String × MonthBuckets)

/-- The stored value of the activities field: either the legacy flat list
or the nested structure. -/
inductive ActivitiesVal where
  | legacy (acts : List Activity)
  | nested (acts : Acts)
deriving DecidableEq

/-- All activity records in a nested structure, in storage order. -/
def allActs (acts : Acts) : List Activity :=
  acts.flatMap (fun ym => ym.2.flatMap (fun mb => mb.2))

/-- Number of stored records carrying a given date string. -/
def countDate (acts : Acts) (date : String) : Nat :=
  (allActs acts).countP (fun a => a.date == date)

/-- The list stored under a year label and month label (empty when the
path is absent), as the lookups at main.py:793 and main.py:900. -/
def getBucket (acts : Acts) (ys ms : String) : List Activity :=
  (lookupKey ((lookupKey acts ys).getD []) ms).getD []

/-- Persistence step shared by `save_activity` (main.py:777-812) and
`save_activity_callback` (main.py:884-919): parse the date to find the
year/month bucket, then replace the first record with the same date in
place (`$set` by index) or append (`$push`). Returns `none` where the
Python code reports an invalid date and saves nothing. -/
def save_activity (acts : Acts) (a : Activity) : Option Acts :=
  match parseDMY a.date with
  | none => none
  | some dt =>
    let ys := toString dt.y
    let ms := toString dt.m
    let mbs := (lookupKey acts ys).getD []
    let bucket := (lookupKey mbs ms).getD []
    let bucket' :=
      match bucket.findIdx? (fun act => act.date == a.date) with
      | some i => bucket.set i a
      | none => bucket ++ [a]
    some (setKey acts ys (setKey mbs ms bucket'))

/-- Construction of the nested structure from a legacy flat list
(main.py:3790-3802): records with unparseable dates are skipped, the
others are appended to the bucket of their parsed year and month. -/
def build_nested (l : List Activity) : Acts :=
  l.foldl
    (fun acc a =>
      match parseDMY a.date with
      | none => acc
      | some dt =>
        let ys := toString dt.y
        let ms := toString dt.m
        let mbs := (lookupKey acc ys).getD []
        let bucket := (lookupKey mbs ms).getD []
        setKey acc ys (setKey mbs ms (bucket ++ [a])))
    []

/-- Legacy-to-nested migration (main.py:3780-3803): a value that is
already a dict is left untouched, a legacy list is rebuilt into the
nested structure. -/
def migrate_activities_structure : ActivitiesVal → ActivitiesVal
  | .nested s => .nested s
  | .legacy l => .nested (build_nested l)

/-- Stable sort of activities by parsed date, `_sort_activities_by_date`
at main.py:3805-3807 (Python `sorted` is stable, as is `mergeSort`). -/
def sort_activities_by_date (acts : List Activity) : List Activity :=
  acts.mergeSort (fun a b => dateVal a.date ≤ dateVal b.date)

/-! ## User documents -/

/-- A user-declared public holiday entry (date string plus description). -/
structure Holiday where
  date : String
  desc : String
deriving DecidableEq, Repr

/-- A stored user document (the fields of the documents created at
main.py:222-229 and mutated by the settings operations). -/
structure User where
  user_id : Nat
  headquarters : Option String
  villages : List String
  activities : ActivitiesVal
  custom_activities : List String
  role : Option String
  default_purpose : Option String
  public_holidays : List Holiday
deriving DecidableEq

/-- Python `user["headquarters"] or "HQ"`: the stored headquarters when
truthy, the literal HQ otherwise. -/
def hqOr : Option String → String
  | none => "HQ"
  | some s => if s == "" then "HQ" else s

/-- Python falsiness of an optional string (`if not user.get(...)`). -/
def optFalsy : Option String → Bool
  | none => true
  | some s => s == ""

/-- In-memory read of the month bucket from a (possibly unmigrated) user
document: `if year_str in activities and month_str in activities[year_str]`
is false on a legacy list, so legacy data yields the empty bucket. -/
def monthBucketVal (v : ActivitiesVal) (ys ms : String) : List Activity :=
  match v with
  | .legacy _ => []
  | .nested acts => getBucket acts ys ms

/-- Check whether an activity dated today exists, as done at
main.py:1573-1577, main.py:1698-1702 and main.py:1831-1835. -/
def hasActivityFor (v : ActivitiesVal) (today : PDate) : Bool :=
  (monthBucketVal v (toString today.y) (toString today.m)).any
    (fun act => act.date == fmtDMY today)

/-! ## Seasonal purpose table -/

/-- Seasonal wording about sowing. -/
def sowingStr : String := "Attended this village to observe sowing operations"

/-- Seasonal wording about harvesting. -/
def harvestingStr : String := "Attended this village to observe harvesting operations"

/-- Seasonal wording about general conditions. -/
def seasonalStr : String := "Attended this village to observe seasonal and crop conditions"

/-- The month table MAIN_ACTIVITIES_BY_MONTH at main.py:91-104, as the
dict lookup `get(month, [])`. -/
def MAIN_ACTIVITIES_BY_MONTH (m : Nat) : List String :=
  if m = 1 ∨ m = 2 ∨ m = 7 ∨ m = 8 ∨ m = 11 then [sowingStr, seasonalStr]
  else if m = 3 ∨ m = 6 ∨ m = 9 ∨ m = 12 then [seasonalStr]
  else if m = 4 ∨ m = 5 then [harvestingStr, seasonalStr]
  else if m = 10 then [sowingStr, harvestingStr, seasonalStr]
  else []

/-- Month activities with the two-item generic default substituted when
the table is empty (main.py:1590-1592 and main.py:1847-1849). -/
def monthMainActivities (m : Nat) : List String :=
  let month_activities := MAIN_ACTIVITIES_BY_MONTH m
  if month_activities.isEmpty then ["survey harvest", "seasonal conditions"]
  else month_activities

/-! ## Village availability and rotation -/

/-- Available villages as computed by `show_village_buttons`
(main.py:359-386): both the village list and the covered destinations are
title-cased, covered destinations are taken from the current month bucket
when their date parses to the current month and year and is non-empty. -/
def show_village_buttons_available (villages : List String) (v : ActivitiesVal)
    (today : PDate) : List String :=
  let villagesT := villages.map pyTitle
  let bucket := monthBucketVal v (toString today.y) (toString today.m)
  villagesT.filter (fun vill =>
    ! bucket.any (fun act =>
        (match parseDMY act.date with
         | some dt => dt.m == today.m && dt.y == today.y
         | none => false) &&
        act.to_village != "" && pyTitle act.to_village == vill))

/-- Destinations already used this month, as collected at
main.py:1863-1868 (raw strings, only truthy destinations). -/
def fallback_used_villages (macts : List Activity) : List String :=
  (macts.filter (fun act => act.to_village != "")).map (fun act => act.to_village)

/-- Available villages in the fallback path (main.py:1870-1871): raw
string comparison against the used destinations. -/
def fallback_available_villages (villages : List String) (macts : List Activity) : List String :=
  villages.filter (fun v => ! (fallback_used_villages macts).contains v)

/-- Selection pool of the fallback rotation (main.py:1873-1891). When
every village was already visited the pool is reset to the full list and
the destination of the most recent activity is excluded when the list has
more than one village and the exclusion leaves the pool non-empty.
Returns `none` where `_sort_activities_by_date` would raise on an
unparseable date (the per-user try/except then skips the user). -/
def fallback_selection_pool (villages : List String) (macts : List Activity) :
    Option (List String) :=
  let available := fallback_available_villages villages macts
  if available.isEmpty then
    let pool := villages
    if macts.isEmpty then some pool
    else if macts.any (fun a => (parseDMY a.date).isNone) then none
    else
      let last_village := ((sort_activities_by_date macts).getLastD ⟨"", "", "", ""⟩).to_village
      if last_village != "" && pool.length > 1 then
        let temp_pool := pool.filter (fun v => v != last_village)
        some (if temp_pool.isEmpty then pool else temp_pool)
      else some pool
  else some available

/-- Modelled from the spec wording of the rotation rule: exclude the given
last destination from the pool unless that exclusion would leave the pool
empty. Used to compare the code pool against the specified one. -/
def rotationSpecPool (villages : List String) (lastVillage : String) : List String :=
  if (villages.filter (fun v => v != lastVillage)).isEmpty then villages
  else villages.filter (fun v => v != lastVillage)

/-- Modelled from the spec wording of the availability contract: the
original village list minus the villages appearing as non-empty
destinations of the given activities, compared case-insensitively (title
normalization on both sides), order preserved. -/
def claimAvailableVillages (villages : List String) (macts : List Activity) : List String :=
  villages.filter (fun v =>
    ! macts.any (fun act => act.to_village != "" && pyTitle act.to_village == pyTitle v))

/-! ## Daily prompt -/

/-- Value stored in `daily_prompt_message_ids`: the current dict form with
message id and date, or the legacy bare message id (main.py:1544-1548
handles both). -/
inductive MsgInfo where
  | plain (message_id : Nat)
  | withDate (message_id : Nat) (date : String)
deriving DecidableEq, Repr

/-- The dedup test of the daily prompt (main.py:1544-1548): skip a user
when the stored entry is the dict form and carries the current date. -/
def prompt_already_sent (ids : List (Nat × MsgInfo)) (uid : Nat) (currentDate : String) : Bool :=
  match lookupKey ids uid with
  | some (.withDate _ d) => d == currentDate
  | _ => false

/-- Per-user body of the daily prompt loop (main.py:1537-1674): skip when
a prompt was already sent today (1542-1548), when today is a user-declared
holiday (1552-1564), or when an activity already exists for today
(1568-1581); otherwise send the selection prompt and record its message id
together with today as dedup key (1670-1674). `newMid` is the transport
message id of the sent prompt; the returned flag says whether a prompt was
sent. -/
def daily_prompt_user (ids : List (Nat × MsgInfo)) (u : User) (today : PDate)
    (newMid : Nat) : List (Nat × MsgInfo) × Bool :=
  if prompt_already_sent ids u.user_id (fmtYMD today) then (ids, false)
  else if u.public_holidays.any (fun h => parseDMY h.date == some today) then (ids, false)
  else if hasActivityFor u.activities today then (ids, false)
  else (setKey ids u.user_id (.withDate newMid (fmtYMD today)), true)

/-! ## Fallback trigger -/

/-- Purpose string of a synthesized holiday activity (main.py:1707-1724
and main.py:1776-1792): a user-declared holiday description takes
precedence, then the weekday wording. -/
def holiday_purpose (u : User) (today : PDate) : String :=
  match u.public_holidays.find? (fun h => parseDMY h.date == some today) with
  | some h => "Public holiday (" ++ h.desc ++ ")"
  | none =>
    if pyWeekday today = 6 then "Public holiday (Sunday)"
    else if pyWeekday today = 5 ∧ today.d = secondSaturdayDay today.m today.y then
      "Public holiday (Second Saturday)"
    else "Public holiday"

/-- The synthesized holiday activity (main.py:1726-1731): empty
destination, holiday purpose. -/
def holiday_activity (u : User) (today : PDate) : Activity :=
  { date := fmtDMY today, from_ := hqOr u.headquarters, to_village := "",
    purpose := holiday_purpose u today }

/-- Per-user body of the Sunday branch of `default_activity_fallback`
(main.py:1689-1747): skip users who already recorded today, persist the
holiday activity for the rest. -/
def sunday_fallback_push (today : PDate) (u : User) : Option (Nat × Activity) :=
  if hasActivityFor u.activities today then none
  else some (u.user_id, holiday_activity u today)

/-- Per-user body of the regular-day branch of `default_activity_fallback`
(main.py:1821-1908): pick the purpose (configured default, otherwise a
random seasonal entry), pick the destination from the rotation pool, and
persist. `choose` stands for `random.choice`; `none` means no record is
persisted for this user (already recorded, empty pool, or the sort raised
and the per-user try/except swallowed it). -/
def regular_fallback_push (choose : List String → String) (today : PDate) (u : User) :
    Option (Nat × Activity) :=
  if hasActivityFor u.activities today then none
  else
    let default_purpose :=
      if optFalsy u.default_purpose then choose (monthMainActivities today.m)
      else u.default_purpose.getD ""
    let macts := monthBucketVal u.activities (toString today.y) (toString today.m)
    match fallback_selection_pool u.villages macts with
    | none => none
    | some pool =>
      if pool.isEmpty then none
      else
        some (u.user_id,
          { date := fmtDMY today, from_ := hqOr u.headquarters,
            to_village := choose pool, purpose := default_purpose })

/-- The whole fallback trigger `default_activity_fallback`
(main.py:1680-1947), returning the list of user id and activity pairs
pushed to the store. On a Sunday every eligible user without an activity
today receives the holiday record. On the second Saturday the body that
builds and persists the record sits OUTSIDE the per-user `for` loop in
the source (main.py:1776-1815 are dedented), so it runs once with the
loop variable still bound to the last enumerated user, and pushes for
that user regardless of the has-activity check; with no eligible user the
source raises NameError and nothing is pushed. Any other day runs the
regular branch. -/
def default_activity_fallback (choose : List String → String) (today : PDate)
    (users : List User) : List (Nat × Activity) :=
  let eligible := users.filter (fun u => ! u.villages.isEmpty)
  if pyWeekday today = 6 then
    eligible.filterMap (sunday_fallback_push today)
  else if pyWeekday today = 5 then
    if today.d = secondSaturdayDay today.m today.y then
      match eligible.getLast? with
      | some u => [(u.user_id, holiday_activity u today)]
      | none => []
    else eligible.filterMap (regular_fallback_push choose today)
  else eligible.filterMap (regular_fallback_push choose today)

/-! ## Report counting -/

/-- Tour-day count of the /dnact export (main.py:1012-1013): activities of
the month whose destination is non-empty after stripping whitespace. -/
def dnact_tour_days (macts : List Activity) : Nat :=
  macts.countP (fun act => pyStrip act.to_village != "")

/-- The fixed monthly requirement used by /dnact (main.py:1014). -/
def dnact_min_required : Nat := 20

/-- Shortfall flag of /dnact (main.py:1020-1024): requirement met when the
count is not below the threshold. -/
def dnact_requirement_met (macts : List Activity) : Bool :=
  ! (dnact_tour_days macts < dnact_min_required)

/-- The per-date activity map built by /td (main.py:3377-3388): keyed by
parsed date, later records with the same date overwrite earlier ones,
unparseable dates are skipped. -/
def td_acts_by_date (bucket : List Activity) : List (PDate × Activity) :=
  bucket.foldl
    (fun m act =>
      match parseDMY act.date with
      | none => m
      | some dt => setKey m dt act)
    []

/-- The per-day tour-day test of /td (main.py:3454-3464): at least two
alphabetic characters in the title-cased destination and no occurrence of
the lowercase word leave in it. -/
def td_tour_day_check (act : Activity) : Bool :=
  let to_val := pyTitle act.to_village
  let to_val_lower := pyLower to_val
  let alpha_count := to_val.toList.countP Char.isAlpha
  decide (alpha_count ≥ 2) && ! strHasSub "leave" to_val_lower

/-- Tour-day count of the /td export (main.py:3448-3464): iterate every
day of the month and count the days whose mapped activity passes the
check. Days without an activity never count. -/
def td_tour_days (month_filter year_filter : Nat) (bucket : List Activity) : Nat :=
  let abd := td_acts_by_date bucket
  let num_days := daysInMonth month_filter year_filter
  ((List.range num_days).map (fun i => i + 1)).countP (fun day =>
    match lookupKey abd ⟨day, month_filter, year_filter⟩ with
    | some act => td_tour_day_check act
    | none => false)

/-! ## Village-selection callbacks -/

/-- The in-memory draft built across flow steps (`temp_activity` dicts);
absent dict keys are `none`. -/
structure TempActivity where
  date : Option String
  to_village : Option String
  purpose : Option String
deriving DecidableEq, Repr

/-- What the village-selection callback decides to do next. -/
inductive VillageAction where
  | saveNow (temp : TempActivity)
  | manualEntry (temp : TempActivity)
  | askPurpose (temp : TempActivity) (month : Nat)
deriving DecidableEq, Repr

/-- Python `date_str = stored or today` (main.py:2949-2951 and
2965-2967): the stored draft date when truthy, else today. -/
def orToday (storedDate : Option String) (todayStr : String) : String :=
  match storedDate with
  | some s => if s == "" then todayStr else s
  | none => todayStr

/-- Dispatch of a `village_` callback (main.py:2945-3021). The
headquarters field read with `.get` is title-cased; a stored null value
makes `.title()` raise, modelled as `none`. Selecting the headquarters
button builds a complete draft with empty destination and the office-work
purpose and saves at once; the manual button asks for text entry; any
other payload goes on to the purpose-selection step for the month of the
target date. -/
def handle_village_callback (data : String) (hqField : Option String)
    (storedDate : Option String) (todayStr : String) (todayMonth : Nat) :
    Option VillageAction :=
  match hqField with
  | none => none
  | some hq0 =>
    let headquarters := pyTitle hq0
    if data == "village_" ++ headquarters then
      some (.saveNow
        { date := some (orToday storedDate todayStr), to_village := some "",
          purpose := some "Attended office work" })
    else if data == "village_manual" then
      some (.manualEntry
        { date := some (orToday storedDate todayStr), to_village := none, purpose := none })
    else
      let village := data.replace "village_" ""
      let date := orToday storedDate todayStr
      let month := match parseDMY date with | some dt => dt.m | none => todayMonth
      some (.askPurpose
        { date := some date, to_village := some village, purpose := none } month)

/-- Dispatch of a `daily_village_` callback (main.py:3024-3110): the same
shape with the target date fixed to today. -/
def handle_daily_village_callback (data : String) (hqField : Option String)
    (todayStr : String) (todayMonth : Nat) : Option VillageAction :=
  match hqField with
  | none => none
  | some hq0 =>
    let headquarters := pyTitle hq0
    if data == "daily_village_" ++ headquarters then
      some (.saveNow
        { date := some todayStr, to_village := some "",
          purpose := some "Attended office work" })
    else if data == "daily_village_manual" then
      some (.manualEntry { date := some todayStr, to_village := none, purpose := none })
    else
      some (.askPurpose
        { date := some todayStr, to_village := some (data.replace "daily_village_" ""),
          purpose := none } todayMonth)

/-- Record built by `save_activity_callback` (main.py:842-877) before
persisting: the draft must carry the destination and purpose keys (their
values may be empty strings), a missing date defaults to today, and the
origin is the stored headquarters or HQ. -/
def save_activity_callback_record (u : User) (temp : TempActivity) (todayStr : String) :
    Option Activity :=
  let date := temp.date.getD todayStr
  match temp.to_village, temp.purpose with
  | some tv, some p =>
    some { date := date, from_ := hqOr u.headquarters, to_village := tv, purpose := p }
  | _, _ => none

/-! ## Pending-prompt timeout supervisor -/

/-- An entry of `pending_prompts` (main.py:437-442). -/
structure PendingPrompt where
  message_id : Nat
  chat_id : Nat
  timeout_time : Nat
deriving DecidableEq, Repr

/-- Transport side effects emitted by the supervisor. -/
inductive Effect where
  | deleteMessage (chat_id message_id : Nat)
  | sendMessage (chat_id : Nat) (text : String)
deriving DecidableEq, Repr

/-- The shared in-memory maps of the bot plus the durable user store. -/
structure BotState where
  pending_prompts : List (Nat × PendingPrompt)
  callback_data : List (Nat × TempActivity)
  input_prompt_message : List (Nat × Nat)
  cancelled_users : List Nat
  users_db : List User
deriving DecidableEq

/-- State cleanup for one expired prompt (main.py:199-204): drop the
draft and the input-prompt record, mark the user cancelled. -/
def timeout_cleanup_state (st : BotState) (uid : Nat) : BotState :=
  { st with
    callback_data := eraseKey st.callback_data uid,
    input_prompt_message := eraseKey st.input_prompt_message uid,
    cancelled_users := setAdd st.cancelled_users uid }

/-- The loop body of `check_timeouts` over a snapshot of the pending
prompts (main.py:193-209): for each expired entry delete the prompt
message, apply the state cleanup, send the timeout notice, and remember
the user for removal. -/
def check_timeouts_users (now : Nat) :
    List (Nat × PendingPrompt) → BotState → BotState × List Effect × List Nat
  | [], st => (st, [], [])
  | (uid, p) :: rest, st =>
    if now ≥ p.timeout_time then
      ((check_timeouts_users now rest (timeout_cleanup_state st uid)).1,
        Effect.deleteMessage p.chat_id p.message_id ::
          Effect.sendMessage p.chat_id "⏰ Timed out. Operation cancelled." ::
            (check_timeouts_users now rest (timeout_cleanup_state st uid)).2.1,
        uid :: (check_timeouts_users now rest (timeout_cleanup_state st uid)).2.2)
    else check_timeouts_users now rest st

/-- One tick of the timeout checker (main.py:190-211): process the
snapshot, then delete the collected entries from `pending_prompts`. -/
def check_timeouts_tick (now : Nat) (st : BotState) : BotState × List Effect :=
  let r := check_timeouts_users now st.pending_prompts st
  ({ r.1 with
      pending_prompts := r.2.2.foldl (fun l uid => eraseKey l uid) r.1.pending_prompts },
    r.2.1)

/-! ## Entry points that lazily create the user document -/

/-- MongoDB `find_one` on the users collection. -/
def find_user (db : List User) (uid : Nat) : Option User :=
  db.find? (fun u => u.user_id == uid)

/-- The fresh document inserted on first contact (main.py:222-229 and
main.py:1048-1055): empty defaults, activities as the legacy empty
list. -/
def new_user_doc (uid : Nat) : User :=
  { user_id := uid, headquarters := none, villages := [], activities := .legacy [],
    custom_activities := [], role := none, default_purpose := none, public_holidays := [] }

/-- Store effect of `/start` (main.py:216-231): insert the fresh document
only when none exists. -/
def start_command (db : List User) (uid : Nat) : List User :=
  match find_user db uid with
  | some _ => db
  | none => db ++ [new_user_doc uid]

/-- Store effect of `/settings` (main.py:1042-1056): the same lazy
insert; the rest of the handler only renders the menu. -/
def settings_command (db : List User) (uid : Nat) : List User :=
  match find_user db uid with
  | some _ => db
  | none => db ++ [new_user_doc uid]

/-! ## Well-formedness of the nested structure and fixtures -/

/-- A record sits in the right bucket: its date parses and the bucket
labels are the rendered year and month of the parsed date. -/
def bucketOkA (ys ms : String) (a : Activity) : Bool :=
  match parseDMY a.date with
  | some dt => ys == toString dt.y && ms == toString dt.m
  | none => false

/-- Well-formedness of the nested activities structure: unique year keys,
unique month keys per year, and every record stored under the labels of
its own parsed date. Every structure built by the migration and the save
path satisfies this. -/
def actsWf (acts : Acts) : Prop :=
  (acts.map Prod.fst).Nodup ∧
  ∀ ym ∈ acts, (ym.2.map Prod.fst).Nodup ∧ ∀ mb ∈ ym.2, ∀ a ∈ mb.2, bucketOkA ym.1 mb.1 a = true

instance (acts : Acts) : Decidable (actsWf acts) := by
  unfold actsWf; infer_instance

/-- A record whose parsed date lies in the given month and year (the date
filter of the /td day map restricted to the displayed month). -/
def inMonthYear (a : Activity) (m y : Nat) : Bool :=
  match parseDMY a.date with
  | some dt => dt.m == m && dt.y == y
  | none => false

/-- Fixture user with a headquarters and one village. -/
def userWitA : User :=
  { user_id := 1, headquarters := some "Anandpur", villages := ["Gokul"],
    activities := .nested [], custom_activities := [], role := none,
    default_purpose := none, public_holidays := [] }

/-- Fixture user with no headquarters and one village. -/
def userWitB : User :=
  { user_id := 2, headquarters := none, villages := ["Rampur"],
    activities := .nested [], custom_activities := [], role := none,
    default_purpose := none, public_holidays := [] }

/-- Fixture bot state with one expired and one live pending prompt. -/
def stateWit : BotState :=
  { pending_prompts := [(1, ⟨55, 77, 10⟩), (2, ⟨56, 78, 99⟩)],
    callback_data := [(1, ⟨some "05/06/2025", none, none⟩)],
    input_prompt_message := [(1, 9)],
    cancelled_users := [], users_db := [userWitA] }

/-- Fixture nested structure holding one record dated 05/06/2025. -/
def actsWit : Acts :=
  [("2025", [("6", [⟨"05/06/2025", "HQ", "Gokul", "p"⟩])])]

/-! ## Helper lemmas on association lists -/

theorem lookupKey_setKey_self {κ α : Type} [DecidableEq κ] (l : List (κ × α)) (k : κ) (v : α) :
    lookupKey (setKey l k v) k = some v := by
  induction l with
  | nil => simp [setKey, lookupKey]
  | cons p t ih =>
    obtain ⟨k1, v1⟩ := p
    by_cases h : k1 = k <;> simp [setKey, lookupKey, h, ih]

theorem lookupKey_mem {κ α : Type} [DecidableEq κ] {l : List (κ × α)} {k : κ} {v : α}
    (h : lookupKey l k = some v) : (k, v) ∈ l := by
  induction l with
  | nil => simp [lookupKey] at h
  | cons p t ih =>
    obtain ⟨k1, v1⟩ := p
    by_cases hk : k1 = k
    · subst hk
      simp [lookupKey] at h
      simp [h]
    · simp [lookupKey, hk] at h
      exact List.mem_cons_of_mem _ (ih h)

theorem mem_setKey {κ α : Type} [DecidableEq κ] {l : List (κ × α)} {k : κ} {v : α}
    {p : κ × α} (h : p ∈ setKey l k v) : p ∈ l ∨ p = (k, v) := by
  induction l with
  | nil => simp [setKey] at h; simp [h]
  | cons q t ih =>
    obtain ⟨k1, v1⟩ := q
    by_cases hk : k1 = k
    · simp [setKey, hk] at h
      rcases h with h | h
      · simp [h]
      · exact Or.inl (List.mem_cons_of_mem _ h)
    · simp [setKey, hk] at h
      rcases h with h | h
      · simp [h]
      · rcases ih h with h1 | h1
        · exact Or.inl (List.mem_cons_of_mem _ h1)
        · exact Or.inr h1

theorem mem_keys_setKey {κ α : Type} [DecidableEq κ] (l : List (κ × α)) (k : κ) (v : α)
    (k1 : κ) : k1 ∈ (setKey l k v).map Prod.fst ↔ k1 ∈ l.map Prod.fst ∨ k1 = k := by
  induction l with
  | nil => simp [setKey]
  | cons q t ih =>
    obtain ⟨k2, v2⟩ := q
    by_cases hk : k2 = k
    · subst hk
      simp [setKey]
      tauto
    · simp [setKey, hk, ih]
      tauto

theorem nodup_keys_setKey {κ α : Type} [DecidableEq κ] {l : List (κ × α)} (k : κ) (v : α)
    (h : (l.map Prod.fst).Nodup) : ((setKey l k v).map Prod.fst).Nodup := by
  induction l with
  | nil => simp [setKey]
  | cons q t ih =>
    obtain ⟨k2, v2⟩ := q
    simp only [List.map_cons, List.nodup_cons] at h
    by_cases hk : k2 = k
    · subst hk
      simpa [setKey] using h
    · rw [show setKey ((k2, v2) :: t) k v = (k2, v2) :: setKey t k v from by simp [setKey, hk]]
      simp only [List.map_cons, List.nodup_cons]
      refine ⟨?_, ih h.2⟩
      rw [mem_keys_setKey]
      rintro (hm | hm)
      · exact h.1 hm
      · exact hk hm

theorem lookupKey_eraseKey_self {κ α : Type} [DecidableEq κ] {l : List (κ × α)} {k : κ}
    (h : (l.map Prod.fst).Nodup) : lookupKey (eraseKey l k) k = none := by
  induction l with
  | nil => simp [eraseKey, lookupKey]
  | cons q t ih =>
    obtain ⟨k2, v2⟩ := q
    simp only [List.map_cons, List.nodup_cons] at h
    by_cases hk : k2 = k
    · subst hk
      rw [show eraseKey ((k2, v2) :: t) k2 = t from by simp [eraseKey]]
      cases hl : lookupKey t k2 with
      | none => rfl
      | some v => exact absurd (List.mem_map_of_mem Prod.fst (lookupKey_mem hl)) h.1
    · rw [show eraseKey ((k2, v2) :: t) k = (k2, v2) :: eraseKey t k from by simp [eraseKey, hk]]
      simp [lookupKey, hk, ih h.2]

theorem lookupKey_eraseKey_of_none {κ α : Type} [DecidableEq κ] {l : List (κ × α)} {k k2 : κ}
    (h : lookupKey l k = none) : lookupKey (eraseKey l k2) k = none := by
  induction l with
  | nil => simp [eraseKey, lookupKey]
  | cons q t ih =>
    obtain ⟨k3, v3⟩ := q
    by_cases hk3 : k3 = k
    · simp [lookupKey, hk3] at h
    · simp only [lookupKey, if_neg hk3] at h
      by_cases he : k3 = k2
      · simp [eraseKey, he, h]
      · rw [show eraseKey ((k3, v3) :: t) k2 = (k3, v3) :: eraseKey t k2 from by
          simp [eraseKey, he]]
        simp [lookupKey, hk3, ih h]

theorem mem_eraseKey_sub {κ α : Type} [DecidableEq κ] {l : List (κ × α)} {k : κ}
    {p : κ × α} (h : p ∈ eraseKey l k) : p ∈ l := by
  induction l with
  | nil => simp [eraseKey] at h
  | cons q t ih =>
    obtain ⟨k2, v2⟩ := q
    by_cases hk : k2 = k
    · simp only [eraseKey, if_pos hk] at h
      exact List.mem_cons_of_mem _ h
    · simp only [eraseKey, if_neg hk] at h
      rcases List.mem_cons.mp h with h1 | h1
      · simp [h1]
      · exact List.mem_cons_of_mem _ (ih h1)

theorem nodup_keys_eraseKey {κ α : Type} [DecidableEq κ] {l : List (κ × α)} (k : κ)
    (h : (l.map Prod.fst).Nodup) : ((eraseKey l k).map Prod.fst).Nodup := by
  induction l with
  | nil => simp [eraseKey]
  | cons q t ih =>
    obtain ⟨k2, v2⟩ := q
    simp only [List.map_cons, List.nodup_cons] at h
    by_cases hk : k2 = k
    · rw [show eraseKey ((k2, v2) :: t) k = t from by simp [eraseKey, hk]]
      exact h.2
    · rw [show eraseKey ((k2, v2) :: t) k = (k2, v2) :: eraseKey t k from by
        simp [eraseKey, hk]]
      simp only [List.map_cons, List.nodup_cons]
      refine ⟨?_, ih h.2⟩
      intro hm
      rcases List.mem_map.mp hm with ⟨p, hp, hfst⟩
      exact h.1 (hfst ▸ List.mem_map_of_mem Prod.fst (mem_eraseKey_sub hp))

theorem mem_setAdd_self {α : Type} [DecidableEq α] (l : List α) (a : α) : a ∈ setAdd l a := by
  by_cases h : a ∈ l <;> simp [setAdd, h]

theorem mem_setAdd_of_mem {α : Type} [DecidableEq α] {l : List α} {a : α} (b : α)
    (h : a ∈ l) : a ∈ setAdd l b := by
  by_cases hb : b ∈ l <;> simp [setAdd, hb, h]

/-! ## Claim C5: migration idempotence -/

/-- C5: the legacy-to-nested migration is idempotent. A second run on a
document whose activities value is already the nested structure takes the
dict branch at main.py:3787-3788 and changes nothing, so running the
migration twice equals running it once. -/
theorem migrate_activities_structure_idempotent (v : ActivitiesVal) :
    migrate_activities_structure (migrate_activities_structure v)
      = migrate_activities_structure v := by
  cases v <;> rfl

/-! ## Claim C10: lazy user-document creation -/

/-- C10: invoking /start or /settings for a user whose document exists
leaves the stored collection unchanged, and inserts the fresh document
with empty defaults exactly when no document exists for that id. -/
theorem start_settings_lazy_insert (db : List User) (uid : Nat) :
    ((find_user db uid).isSome →
      start_command db uid = db ∧ settings_command db uid = db) ∧
    (find_user db uid = none →
      start_command db uid = db ++ [new_user_doc uid] ∧
      settings_command db uid = db ++ [new_user_doc uid]) := by
  constructor
  · intro h
    cases hf : find_user db uid with
    | none => rw [hf] at h; simp at h
    | some u => constructor <;> simp [start_command, settings_command, hf]
  · intro h
    constructor <;> simp [start_command, settings_command, h]

/-- Witness for C10 at concrete inputs: an existing document is left
untouched and a missing one is created. -/
theorem start_settings_lazy_insert_witness :
    (start_command [new_user_doc 7] 7 = [new_user_doc 7] ∧
      settings_command [new_user_doc 7] 7 = [new_user_doc 7]) ∧
    (start_command [] 9 = [new_user_doc 9] ∧ settings_command [] 9 = [new_user_doc 9]) :=
  ⟨(start_settings_lazy_insert [new_user_doc 7] 7).1 (by decide),
   (start_settings_lazy_insert [] 9).2 (by decide)⟩

/-! ## Claim C9: headquarters short-circuit -/

/-- C9: selecting the headquarters button in the village step (either the
plain or the daily variant) dispatches directly to an immediate save
whose draft carries the target date, an empty destination and the
implicit office-work purpose, bypassing the purpose-selection step; and
the record built by the save step from that draft has empty destination
and the office-work purpose for the target date. -/
theorem headquarters_short_circuits_save (hq : String) (storedDate : Option String)
    (todayStr : String) (todayMonth : Nat) (u : User) :
    handle_village_callback ("village_" ++ pyTitle hq) (some hq) storedDate todayStr todayMonth
      = some (.saveNow
          { date := some (orToday storedDate todayStr), to_village := some "",
            purpose := some "Attended office work" }) ∧
    handle_daily_village_callback ("daily_village_" ++ pyTitle hq) (some hq) todayStr todayMonth
      = some (.saveNow
          { date := some todayStr, to_village := some "",
            purpose := some "Attended office work" }) ∧
    save_activity_callback_record u
        { date := some (orToday storedDate todayStr), to_village := some "",
          purpose := some "Attended office work" } todayStr
      = some { date := orToday storedDate todayStr, from_ := hqOr u.headquarters,
               to_village := "", purpose := "Attended office work" } := by
  refine ⟨?_, ?_, rfl⟩ <;>
    simp [handle_village_callback, handle_daily_village_callback]

/-! ## Claim C2: holiday fallback (second-Saturday defect) -/

/-- C2: evaluation of the fallback trigger at the failing input. On the
second Saturday 14/06/2025 both fixture users are eligible (villages
configured, no activity for the day), yet the trigger persists a holiday
record only for the last enumerated user: the record-building block at
main.py:1776-1815 is dedented out of the per-user loop. On the Sunday
15/06/2025 the same two users both receive records, as the claim
demands. -/
theorem second_saturday_fallback_only_last_user :
    ([userWitA, userWitB].all
        (fun u => ! u.villages.isEmpty && ! hasActivityFor u.activities ⟨14, 6, 2025⟩)) = true ∧
    pyWeekday ⟨14, 6, 2025⟩ = 5 ∧
    secondSaturdayDay 6 2025 = 14 ∧
    default_activity_fallback (fun l => l.headD "") ⟨14, 6, 2025⟩ [userWitA, userWitB]
      = [(2, { date := "14/06/2025", from_ := "HQ", to_village := "",
               purpose := "Public holiday (Second Saturday)" })] ∧
    ((default_activity_fallback (fun l => l.headD "") ⟨14, 6, 2025⟩
        [userWitA, userWitB]).map Prod.fst).contains 1 = false ∧
    default_activity_fallback (fun l => l.headD "") ⟨15, 6, 2025⟩ [userWitA, userWitB]
      = [(1, { date := "15/06/2025", from_ := "Anandpur", to_village := "",
               purpose := "Public holiday (Sunday)" }),
         (2, { date := "15/06/2025", from_ := "HQ", to_village := "",
               purpose := "Public holiday (Sunday)" })] := by
  decide

/-! ## Claim C6: idempotent daily prompt -/

/-- C6: once the daily prompt trigger has sent a prompt to a user and
recorded the message reference with the current date, a second invocation
on the same day is a no-op for that user: it changes no state and sends
nothing, so at most one prompt reaches the user per day. -/
theorem daily_prompt_second_invocation_noop (ids : List (Nat × MsgInfo)) (u : User)
    (today : PDate) (mid mid2 : Nat)
    (hsent : (daily_prompt_user ids u today mid).2 = true) :
    lookupKey (daily_prompt_user ids u today mid).1 u.user_id
        = some (.withDate mid (fmtYMD today)) ∧
    daily_prompt_user (daily_prompt_user ids u today mid).1 u today mid2
        = ((daily_prompt_user ids u today mid).1, false) := by
  have hrun : daily_prompt_user ids u today mid
      = (setKey ids u.user_id (.withDate mid (fmtYMD today)), true) := by
    by_cases h1 : prompt_already_sent ids u.user_id (fmtYMD today)
    · simp [daily_prompt_user, h1] at hsent
    · by_cases h2 : u.public_holidays.any (fun h => parseDMY h.date == some today)
      · simp [daily_prompt_user, h1, h2] at hsent
      · by_cases h3 : hasActivityFor u.activities today
        · simp [daily_prompt_user, h1, h2, h3] at hsent
        · simp [daily_prompt_user, h1, h2, h3]
  rw [hrun]
  have hlook : lookupKey (setKey ids u.user_id (MsgInfo.withDate mid (fmtYMD today)))
      u.user_id = some (.withDate mid (fmtYMD today)) :=
    lookupKey_setKey_self ids u.user_id _
  refine ⟨hlook, ?_⟩
  have hsent2 : prompt_already_sent
      (setKey ids u.user_id (MsgInfo.withDate mid (fmtYMD today))) u.user_id
      (fmtYMD today) = true := by
    simp [prompt_already_sent, hlook]
  simp [daily_prompt_user, hsent2]

/-- Witness for C6: a concrete first invocation that sends, after which
the second invocation on the same day is a no-op. -/
theorem daily_prompt_second_invocation_noop_witness :
    lookupKey (daily_prompt_user [] userWitA ⟨2, 6, 2025⟩ 100).1 userWitA.user_id
        = some (.withDate 100 (fmtYMD ⟨2, 6, 2025⟩)) ∧
    daily_prompt_user (daily_prompt_user [] userWitA ⟨2, 6, 2025⟩ 100).1 userWitA
        ⟨2, 6, 2025⟩ 101
      = ((daily_prompt_user [] userWitA ⟨2, 6, 2025⟩ 100).1, false) :=
  daily_prompt_second_invocation_noop [] userWitA ⟨2, 6, 2025⟩ 100 101 (by decide)

/-! ## Claim C8: timeout supervisor cleanup -/

theorem check_users_pending (now : Nat) (l : List (Nat × PendingPrompt)) (st : BotState) :
    (check_timeouts_users now l st).1.pending_prompts = st.pending_prompts := by
  induction l generalizing st with
  | nil => rfl
  | cons e rest ih =>
    obtain ⟨uid, p⟩ := e
    by_cases h : now ≥ p.timeout_time
    · simp only [check_timeouts_users, if_pos h]
      exact ih (timeout_cleanup_state st uid)
    · simp only [check_timeouts_users, if_neg h]
      exact ih st

theorem check_users_db (now : Nat) (l : List (Nat × PendingPrompt)) (st : BotState) :
    (check_timeouts_users now l st).1.users_db = st.users_db := by
  induction l generalizing st with
  | nil => rfl
  | cons e rest ih =>
    obtain ⟨uid, p⟩ := e
    by_cases h : now ≥ p.timeout_time
    · simp only [check_timeouts_users, if_pos h]
      exact ih (timeout_cleanup_state st uid)
    · simp only [check_timeouts_users, if_neg h]
      exact ih st

theorem check_users_cancel_mono (now : Nat) (l : List (Nat × PendingPrompt)) (st : BotState)
    (a : Nat) (h : a ∈ st.cancelled_users) :
    a ∈ (check_timeouts_users now l st).1.cancelled_users := by
  induction l generalizing st with
  | nil => exact h
  | cons e rest ih =>
    obtain ⟨uid, p⟩ := e
    by_cases hx : now ≥ p.timeout_time
    · simp only [check_timeouts_users, if_pos hx]
      exact ih (timeout_cleanup_state st uid) (mem_setAdd_of_mem uid h)
    · simp only [check_timeouts_users, if_neg hx]
      exact ih st h

theorem check_users_callback_none (now : Nat) (l : List (Nat × PendingPrompt)) (st : BotState)
    (a : Nat) (h : lookupKey st.callback_data a = none) :
    lookupKey (check_timeouts_users now l st).1.callback_data a = none := by
  induction l generalizing st with
  | nil => exact h
  | cons e rest ih =>
    obtain ⟨uid, p⟩ := e
    by_cases hx : now ≥ p.timeout_time
    · simp only [check_timeouts_users, if_pos hx]
      exact ih (timeout_cleanup_state st uid) (lookupKey_eraseKey_of_none h)
    · simp only [check_timeouts_users, if_neg hx]
      exact ih st h

theorem check_users_input_none (now : Nat) (l : List (Nat × PendingPrompt)) (st : BotState)
    (a : Nat) (h : lookupKey st.input_prompt_message a = none) :
    lookupKey (check_timeouts_users now l st).1.input_prompt_message a = none := by
  induction l generalizing st with
  | nil => exact h
  | cons e rest ih =>
    obtain ⟨uid, p⟩ := e
    by_cases hx : now ≥ p.timeout_time
    · simp only [check_timeouts_users, if_pos hx]
      exact ih (timeout_cleanup_state st uid) (lookupKey_eraseKey_of_none h)
    · simp only [check_timeouts_users, if_neg hx]
      exact ih st h

theorem check_users_spec (now : Nat) (l : List (Nat × PendingPrompt)) (st : BotState)
    (uid : Nat) (p : PendingPrompt) (hmem : (uid, p) ∈ l) (hexp : p.timeout_time ≤ now)
    (hnd2 : (st.callback_data.map Prod.fst).Nodup)
    (hnd3 : (st.input_prompt_message.map Prod.fst).Nodup) :
    uid ∈ (check_timeouts_users now l st).2.2 ∧
    Effect.deleteMessage p.chat_id p.message_id ∈ (check_timeouts_users now l st).2.1 ∧
    Effect.sendMessage p.chat_id "⏰ Timed out. Operation cancelled."
      ∈ (check_timeouts_users now l st).2.1 ∧
    uid ∈ (check_timeouts_users now l st).1.cancelled_users ∧
    lookupKey (check_timeouts_users now l st).1.callback_data uid = none ∧
    lookupKey (check_timeouts_users now l st).1.input_prompt_message uid = none := by
  induction l generalizing st with
  | nil => simp at hmem
  | cons e rest ih =>
    obtain ⟨k, q⟩ := e
    rcases List.mem_cons.mp hmem with he | he
    · obtain ⟨rfl, rfl⟩ := Prod.mk.injEq .. ▸ he
      have hx : now ≥ p.timeout_time := hexp
      simp only [check_timeouts_users, if_pos hx]
      refine ⟨List.mem_cons_self _ _, List.mem_cons_self _ _,
        List.mem_cons_of_mem _ (List.mem_cons_self _ _), ?_, ?_, ?_⟩
      · exact check_users_cancel_mono now rest _ uid (mem_setAdd_self _ _)
      · exact check_users_callback_none now rest _ uid (lookupKey_eraseKey_self hnd2)
      · exact check_users_input_none now rest _ uid (lookupKey_eraseKey_self hnd3)
    · by_cases hx : now ≥ q.timeout_time
      · simp only [check_timeouts_users, if_pos hx]
        have ih2 := ih (timeout_cleanup_state st k) he
          (nodup_keys_eraseKey k hnd2) (nodup_keys_eraseKey k hnd3)
        exact ⟨List.mem_cons_of_mem _ ih2.1,
          List.mem_cons_of_mem _ (List.mem_cons_of_mem _ ih2.2.1),
          List.mem_cons_of_mem _ (List.mem_cons_of_mem _ ih2.2.2.1),
          ih2.2.2.2.1, ih2.2.2.2.2.1, ih2.2.2.2.2.2⟩
      · simp only [check_timeouts_users, if_neg hx]
        exact ih st he hnd2 hnd3

theorem lookup_foldl_eraseKey_none {κ α : Type} [DecidableEq κ] (rem : List κ)
    (l : List (κ × α)) (k : κ) (h : lookupKey l k = none) :
    lookupKey (rem.foldl (fun acc u => eraseKey acc u) l) k = none := by
  induction rem generalizing l with
  | nil => exact h
  | cons r rest ih =>
    simp only [List.foldl_cons]
    exact ih (eraseKey l r) (lookupKey_eraseKey_of_none h)

theorem lookup_foldl_eraseKey {κ α : Type} [DecidableEq κ] (rem : List κ)
    (l : List (κ × α)) (k : κ) (hnd : (l.map Prod.fst).Nodup) (hk : k ∈ rem) :
    lookupKey (rem.foldl (fun acc u => eraseKey acc u) l) k = none := by
  induction rem generalizing l with
  | nil => simp at hk
  | cons r rest ih =>
    simp only [List.foldl_cons]
    rcases List.mem_cons.mp hk with he | he
    · subst he
      exact lookup_foldl_eraseKey_none rest _ k (lookupKey_eraseKey_self hnd)
    · exact ih (eraseKey l r) (nodup_keys_eraseKey r hnd) he

/-- C8: when a pending prompt has expired, one supervisor tick deletes the
prompt message and sends the timeout notice, discards the temp activity
draft and the input-prompt record, marks the user cancelled, removes the
pending-prompt entry, and leaves the durable user store untouched, so no
activity is persisted by the timeout path. -/
theorem prompt_timeout_cleanup (now : Nat) (st : BotState) (uid : Nat) (p : PendingPrompt)
    (hmem : (uid, p) ∈ st.pending_prompts)
    (hexp : p.timeout_time ≤ now)
    (hnd1 : (st.pending_prompts.map Prod.fst).Nodup)
    (hnd2 : (st.callback_data.map Prod.fst).Nodup)
    (hnd3 : (st.input_prompt_message.map Prod.fst).Nodup) :
    lookupKey (check_timeouts_tick now st).1.pending_prompts uid = none ∧
    uid ∈ (check_timeouts_tick now st).1.cancelled_users ∧
    lookupKey (check_timeouts_tick now st).1.callback_data uid = none ∧
    lookupKey (check_timeouts_tick now st).1.input_prompt_message uid = none ∧
    Effect.deleteMessage p.chat_id p.message_id ∈ (check_timeouts_tick now st).2 ∧
    Effect.sendMessage p.chat_id "⏰ Timed out. Operation cancelled."
      ∈ (check_timeouts_tick now st).2 ∧
    (check_timeouts_tick now st).1.users_db = st.users_db := by
  have hs := check_users_spec now st.pending_prompts st uid p hmem hexp hnd2 hnd3
  have hpend : (check_timeouts_users now st.pending_prompts st).1.pending_prompts
      = st.pending_prompts := check_users_pending now st.pending_prompts st
  refine ⟨?_, hs.2.2.2.1, hs.2.2.2.2.1, hs.2.2.2.2.2, hs.2.1, hs.2.2.1,
    check_users_db now st.pending_prompts st⟩
  show lookupKey (((check_timeouts_users now st.pending_prompts st).2.2).foldl
      (fun acc u => eraseKey acc u)
      (check_timeouts_users now st.pending_prompts st).1.pending_prompts) uid = none
  rw [hpend]
  exact lookup_foldl_eraseKey _ _ _ hnd1 hs.1

/-- Witness for C8 on the fixture state: user 1 has an expired prompt and
is fully cleaned up by one tick at time 50. -/
theorem prompt_timeout_cleanup_witness :
    lookupKey (check_timeouts_tick 50 stateWit).1.pending_prompts 1 = none ∧
    1 ∈ (check_timeouts_tick 50 stateWit).1.cancelled_users ∧
    lookupKey (check_timeouts_tick 50 stateWit).1.callback_data 1 = none ∧
    lookupKey (check_timeouts_tick 50 stateWit).1.input_prompt_message 1 = none ∧
    Effect.deleteMessage 77 55 ∈ (check_timeouts_tick 50 stateWit).2 ∧
    Effect.sendMessage 77 "⏰ Timed out. Operation cancelled."
      ∈ (check_timeouts_tick 50 stateWit).2 ∧
    (check_timeouts_tick 50 stateWit).1.users_db = stateWit.users_db :=
  prompt_timeout_cleanup 50 stateWit 1 ⟨55, 77, 10⟩ (by decide) (by decide) (by decide)
    (by decide) (by decide)

/-! ## Claim C4: availability computation in the two code paths -/

/-- C4 counterexample: the fallback path compares destinations to
villages by raw string equality, not case-insensitively. With village
list rampur and one activity whose destination is Rampur, the fallback
availability keeps rampur although the case-insensitive contract removes
it. -/
theorem fallback_available_breaks_case_insensitivity :
    fallback_available_villages ["rampur"] [⟨"05/06/2025", "HQ", "Rampur", "q"⟩]
      ≠ claimAvailableVillages ["rampur"] [⟨"05/06/2025", "HQ", "Rampur", "q"⟩] := by
  decide

/-- C4 as amended: the interactive path computes the original village
list minus the villages whose title-cased form matches the title-cased
form of a non-empty destination of a month-matching activity, order
preserved and presented in title case (a case-insensitive comparison);
the fallback path computes the original village list minus the villages
equal, as raw strings, to a non-empty destination, order preserved. -/
theorem available_villages_characterization (villages : List String) (macts : List Activity)
    (v0 : ActivitiesVal) (today : PDate) :
    fallback_available_villages villages macts
      = villages.filter (fun v =>
          ! macts.any (fun act => act.to_village != "" && act.to_village == v)) ∧
    (fallback_available_villages villages macts).Sublist villages ∧
    show_village_buttons_available villages v0 today
      = (villages.filter (fun v =>
          ! (monthBucketVal v0 (toString today.y) (toString today.m)).any (fun act =>
              inMonthYear act today.m today.y && act.to_village != ""
                && pyTitle act.to_village == pyTitle v))).map pyTitle ∧
    (show_village_buttons_available villages v0 today).Sublist (villages.map pyTitle) := by
  have h1 : fallback_available_villages villages macts
      = villages.filter (fun v =>
          ! macts.any (fun act => act.to_village != "" && act.to_village == v)) := by
    unfold fallback_available_villages
    refine List.filter_congr ?_
    intro v _
    have hc : (fallback_used_villages macts).contains v
        = macts.any (fun act => act.to_village != "" && act.to_village == v) := by
      rw [Bool.eq_iff_iff]
      constructor
      · intro h
        have hv : v ∈ fallback_used_villages macts := by simpa using h
        unfold fallback_used_villages at hv
        rcases List.mem_map.mp hv with ⟨act, hact, heq⟩
        have hfil := List.mem_filter.mp hact
        refine List.any_eq_true.mpr ⟨act, hfil.1, ?_⟩
        simp only [Bool.and_eq_true, bne_iff_ne, beq_iff_eq]
        exact ⟨by simpa using hfil.2, heq⟩
      · intro h
        rcases List.any_eq_true.mp h with ⟨act, hact, hcond⟩
        simp only [Bool.and_eq_true, bne_iff_ne, beq_iff_eq] at hcond
        have hv : v ∈ fallback_used_villages macts := by
          unfold fallback_used_villages
          exact List.mem_map.mpr
            ⟨act, List.mem_filter.mpr ⟨hact, by simpa using hcond.1⟩, hcond.2⟩
        simpa using hv
    rw [hc]
  refine ⟨h1, h1 ▸ List.filter_sublist villages, ?_, ?_⟩
  · unfold show_village_buttons_available
    rw [List.filter_map]
    rfl
  · unfold show_village_buttons_available
    exact List.filter_sublist (villages.map pyTitle)

/-! ## Claim C3: fallback rotation pool -/

theorem sort_activities_sorted (macts : List Activity) :
    (sort_activities_by_date macts).Pairwise
      (fun a b => (decide (dateVal a.date ≤ dateVal b.date)) = true) := by
  unfold sort_activities_by_date
  exact List.sorted_mergeSort
    (by intro a b c hab hbc; simp only [decide_eq_true_eq] at *; omega)
    (by intro a b; simp only [Bool.or_eq_true, decide_eq_true_eq]; omega) macts

theorem sort_activities_perm (macts : List Activity) :
    (sort_activities_by_date macts).Perm macts :=
  List.mergeSort_perm macts _

theorem pairwise_dateVal_getLastD (l : List Activity) (dflt : Activity) (hl : l ≠ [])
    (hp : l.Pairwise (fun a b => (decide (dateVal a.date ≤ dateVal b.date)) = true)) :
    ∀ a ∈ l, dateVal a.date ≤ dateVal (l.getLastD dflt).date := by
  induction l with
  | nil => exact absurd rfl hl
  | cons x t ih =>
    cases t with
    | nil =>
      intro a ha
      rcases List.mem_singleton.mp ha with rfl
      simp [List.getLastD]
    | cons y t2 =>
      rcases List.pairwise_cons.mp hp with ⟨hx, hp2⟩
      have hlast : (x :: y :: t2).getLastD dflt = (y :: t2).getLastD dflt := by
        rw [List.getLastD_eq_getLast?, List.getLastD_eq_getLast?, List.getLast?_cons_cons]
      intro a ha
      rcases List.mem_cons.mp ha with rfl | ha2
      · have hmem : (y :: t2).getLastD dflt ∈ y :: t2 := by
          rw [List.getLastD_eq_getLast?,
            List.getLast?_eq_getLast (y :: t2) (List.cons_ne_nil y t2)]
          exact List.getLast_mem (List.cons_ne_nil y t2)
        have h2 := hx _ hmem
        rw [hlast]
        simpa using h2
      · rw [hlast]
        exact ih (List.cons_ne_nil y t2) hp2 a ha2

theorem rotation_pool_reduce (villages : List String) (lastV : String)
    (hne : villages ≠ []) (hnoempty : "" ∉ villages) :
    (if lastV != "" && decide (villages.length > 1)
     then some (if (villages.filter (fun v => v != lastV)).isEmpty then villages
                else villages.filter (fun v => v != lastV))
     else (some villages : Option (List String)))
      = some (rotationSpecPool villages lastV) := by
  unfold rotationSpecPool
  by_cases hl0 : lastV = ""
  · subst hl0
    have hF : villages.filter (fun v => v != "") = villages := by
      rw [List.filter_eq_self]
      intro v hv
      simp only [bne_iff_ne, ne_eq]
      intro h
      exact hnoempty (h ▸ hv)
    have hve : villages.isEmpty = false := by simpa [List.isEmpty_iff] using hne
    rw [hF]
    simp [hve]
  · have h1 : (lastV != "") = true := by simpa using hl0
    by_cases hlen : villages.length > 1
    · have h2 : decide (villages.length > 1) = true := by simpa using hlen
      rw [h1, h2]
      simp [List.isEmpty_iff]
    · have hlen1 : villages.length = 1 := by
        have h0 : villages.length ≠ 0 := by simpa [List.length_eq_zero] using hne
        omega
      rcases List.length_eq_one.mp hlen1 with ⟨v, rfl⟩
      have h2 : decide (([v] : List String).length > 1) = false := by simp
      rw [h1, h2]
      by_cases hvl : v = lastV
      · subst hvl
        simp
      · simp [hvl]

/-- C3: the fallback destination rotation refines the specified rule.
When villages remain unvisited this month, the pool handed to the uniform
chooser (`random.choice`, main.py:1897) is exactly the unvisited list;
when none remain and the month has no recorded activity the pool resets
to the full village list; when none remain and the month has activities,
the element the code takes as most recent really carries the maximal
date and belongs to the month, and the pool equals the specified one: the
full list with that destination excluded unless the exclusion would leave
the pool empty. Hypotheses: at least one village, no empty-string village
name, and parseable activity dates (an unparseable date makes the Python
sort raise, skipping the user). -/
theorem fallback_rotation_follows_spec (villages : List String) (macts : List Activity)
    (hne : villages ≠ []) (hnoempty : "" ∉ villages)
    (hdates : ∀ a ∈ macts, (parseDMY a.date).isSome = true) :
    (fallback_available_villages villages macts ≠ [] →
      fallback_selection_pool villages macts
        = some (fallback_available_villages villages macts)) ∧
    (fallback_available_villages villages macts = [] → macts = [] →
      fallback_selection_pool villages macts = some villages) ∧
    (fallback_available_villages villages macts = [] → macts ≠ [] →
      ((sort_activities_by_date macts).getLastD ⟨"", "", "", ""⟩ ∈ macts ∧
        (∀ a ∈ macts, dateVal a.date
          ≤ dateVal ((sort_activities_by_date macts).getLastD ⟨"", "", "", ""⟩).date) ∧
        fallback_selection_pool villages macts
          = some (rotationSpecPool villages
              ((sort_activities_by_date macts).getLastD ⟨"", "", "", ""⟩).to_village))) := by
  refine ⟨?_, ?_, ?_⟩
  · intro hav
    have hemp : (fallback_available_villages villages macts).isEmpty = false := by
      simpa [List.isEmpty_iff] using hav
    simp [fallback_selection_pool, hemp]
  · intro hav hm
    subst hm
    have hemp : (fallback_available_villages villages []).isEmpty = true := by
      simp [List.isEmpty_iff, hav]
    simp [fallback_selection_pool, hemp]
  · intro hav hm
    have hemp : (fallback_available_villages villages macts).isEmpty = true := by
      simp [List.isEmpty_iff, hav]
    have hmne : macts.isEmpty = false := by simpa [List.isEmpty_iff] using hm
    have hnone : macts.any (fun a => (parseDMY a.date).isNone) = false := by
      rw [List.any_eq_false]
      intro a ha
      have hiss := hdates a ha
      cases hpd : parseDMY a.date with
      | none => rw [hpd] at hiss; simp at hiss
      | some dt => simp [hpd]
    have hsne : sort_activities_by_date macts ≠ [] := by
      intro h0
      exact hm (List.Perm.eq_nil ((h0 ▸ sort_activities_perm macts).symm))
    have hlmem : (sort_activities_by_date macts).getLastD ⟨"", "", "", ""⟩
        ∈ sort_activities_by_date macts := by
      rw [List.getLastD_eq_getLast?, List.getLast?_eq_getLast _ hsne]
      exact List.getLast_mem hsne
    refine ⟨(sort_activities_perm macts).mem_iff.mp hlmem, ?_, ?_⟩
    · intro a ha
      exact pairwise_dateVal_getLastD _ _ hsne (sort_activities_sorted macts) a
        ((sort_activities_perm macts).mem_iff.mpr ha)
    · have hpool : fallback_selection_pool villages macts
          = (if ((sort_activities_by_date macts).getLastD ⟨"", "", "", ""⟩).to_village != ""
                && decide (villages.length > 1)
             then some (if (villages.filter (fun v =>
                    v != ((sort_activities_by_date macts).getLastD
                      ⟨"", "", "", ""⟩).to_village)).isEmpty
                  then villages
                  else villages.filter (fun v =>
                    v != ((sort_activities_by_date macts).getLastD
                      ⟨"", "", "", ""⟩).to_village))
             else some villages) := by
        simp [fallback_selection_pool, hemp, hmne, hnone]
      rw [hpool, rotation_pool_reduce villages _ hne hnoempty]

/-- Witness for C3: two villages both already visited this month; the
pool excludes the later destination Rampur and keeps Gokul. -/
theorem fallback_rotation_follows_spec_witness :
    (fallback_available_villages ["Gokul", "Rampur"]
        [⟨"05/06/2025", "HQ", "Gokul", "p"⟩, ⟨"07/06/2025", "HQ", "Rampur", "q"⟩] ≠ [] →
      fallback_selection_pool ["Gokul", "Rampur"]
          [⟨"05/06/2025", "HQ", "Gokul", "p"⟩, ⟨"07/06/2025", "HQ", "Rampur", "q"⟩]
        = some (fallback_available_villages ["Gokul", "Rampur"]
            [⟨"05/06/2025", "HQ", "Gokul", "p"⟩, ⟨"07/06/2025", "HQ", "Rampur", "q"⟩])) ∧
    (fallback_available_villages ["Gokul", "Rampur"]
        [⟨"05/06/2025", "HQ", "Gokul", "p"⟩, ⟨"07/06/2025", "HQ", "Rampur", "q"⟩] = [] →
      [⟨"05/06/2025", "HQ", "Gokul", "p"⟩, ⟨"07/06/2025", "HQ", "Rampur", "q"⟩]
          = ([] : List Activity) →
      fallback_selection_pool ["Gokul", "Rampur"]
          [⟨"05/06/2025", "HQ", "Gokul", "p"⟩, ⟨"07/06/2025", "HQ", "Rampur", "q"⟩]
        = some ["Gokul", "Rampur"]) ∧
    (fallback_available_villages ["Gokul", "Rampur"]
        [⟨"05/06/2025", "HQ", "Gokul", "p"⟩, ⟨"07/06/2025", "HQ", "Rampur", "q"⟩] = [] →
      [⟨"05/06/2025", "HQ", "Gokul", "p"⟩, ⟨"07/06/2025", "HQ", "Rampur", "q"⟩]
          ≠ ([] : List Activity) →
      ((sort_activities_by_date
          [⟨"05/06/2025", "HQ", "Gokul", "p"⟩,
            ⟨"07/06/2025", "HQ", "Rampur", "q"⟩]).getLastD ⟨"", "", "", ""⟩
        ∈ [(⟨"05/06/2025", "HQ", "Gokul", "p"⟩ : Activity),
            ⟨"07/06/2025", "HQ", "Rampur", "q"⟩] ∧
      (∀ a ∈ [(⟨"05/06/2025", "HQ", "Gokul", "p"⟩ : Activity),
            ⟨"07/06/2025", "HQ", "Rampur", "q"⟩],
          dateVal a.date ≤ dateVal ((sort_activities_by_date
            [⟨"05/06/2025", "HQ", "Gokul", "p"⟩,
              ⟨"07/06/2025", "HQ", "Rampur", "q"⟩]).getLastD ⟨"", "", "", ""⟩).date) ∧
      fallback_selection_pool ["Gokul", "Rampur"]
          [⟨"05/06/2025", "HQ", "Gokul", "p"⟩, ⟨"07/06/2025", "HQ", "Rampur", "q"⟩]
        = some (rotationSpecPool ["Gokul", "Rampur"]
            ((sort_activities_by_date
              [⟨"05/06/2025", "HQ", "Gokul", "p"⟩,
                ⟨"07/06/2025", "HQ", "Rampur", "q"⟩]).getLastD
                  ⟨"", "", "", ""⟩).to_village))) :=
  fallback_rotation_follows_spec ["Gokul", "Rampur"]
    [⟨"05/06/2025", "HQ", "Gokul", "p"⟩, ⟨"07/06/2025", "HQ", "Rampur", "q"⟩]
    (by decide) (by decide) (by decide)

/-! ## Claim C7: tour-day counting in the two exports -/

/-- C7 counterexample: the two exports do not use the same counting rule.
A single activity with destination Leave is a tour day for /dnact (its
stripped destination is non-empty, main.py:1013 has no leave test) but
not for /td (main.py:3463 excludes destinations containing leave), so the
claimed common non-empty-and-not-leave rule matches neither pair. -/
theorem tour_day_rules_differ :
    dnact_tour_days [⟨"02/06/2024", "X", "Leave", ""⟩]
      ≠ td_tour_days 6 2024 [⟨"02/06/2024", "X", "Leave", ""⟩] := by
  decide

theorem setKey_of_not_mem {κ α : Type} [DecidableEq κ] {m : List (κ × α)} {k : κ} (v : α)
    (h : lookupKey m k = none) : setKey m k v = m ++ [(k, v)] := by
  induction m with
  | nil => rfl
  | cons q t ih =>
    obtain ⟨k2, v2⟩ := q
    by_cases hk : k2 = k
    · simp [lookupKey, hk] at h
    · simp only [lookupKey, if_neg hk] at h
      simp [setKey, hk, ih h]

theorem lookupKey_append_none {κ α : Type} [DecidableEq κ] {l1 l2 : List (κ × α)} {k : κ}
    (h1 : lookupKey l1 k = none) (h2 : lookupKey l2 k = none) :
    lookupKey (l1 ++ l2) k = none := by
  induction l1 with
  | nil => exact h2
  | cons q t ih =>
    obtain ⟨k2, v2⟩ := q
    by_cases hk : k2 = k
    · simp [lookupKey, hk] at h1
    · simp only [lookupKey, if_neg hk] at h1
      simp only [List.cons_append, lookupKey, if_neg hk]
      exact ih h1

theorem parseField2_bounds {cs : List Char} {lo hi n : Nat}
    (h : parseField2 cs lo hi = some n) : lo ≤ n ∧ n ≤ hi := by
  unfold parseField2 at h
  split at h
  · split at h
    · injection h with h
      subst h
      assumption
    · exact absurd h (by simp)
  · exact absurd h (by simp)

theorem parseDMY_day_bounds {s : String} {dt : PDate} (h : parseDMY s = some dt) :
    1 ≤ dt.d ∧ dt.d ≤ daysInMonth dt.m dt.y := by
  unfold parseDMY at h
  split at h
  · split at h
    · split at h
      · injection h with h
        subst h
        rename_i hd hm hy hcond
        exact ⟨(parseField2_bounds hd).1, hcond.2⟩
      · exact absurd h (by simp)
    · exact absurd h (by simp)
  · exact absurd h (by simp)

theorem td_abd_aux (bucket : List Activity) (acc : List (PDate × Activity))
    (hp : ∀ a ∈ bucket, (parseDMY a.date).isSome = true)
    (hdisj : ∀ a ∈ bucket, lookupKey acc ((parseDMY a.date).getD ⟨1, 1, 1⟩) = none)
    (hnd : (bucket.map (fun a => parseDMY a.date)).Nodup) :
    bucket.foldl
        (fun m act =>
          match parseDMY act.date with
          | none => m
          | some dt => setKey m dt act) acc
      = acc ++ bucket.map (fun a => ((parseDMY a.date).getD ⟨1, 1, 1⟩, a)) := by
  induction bucket generalizing acc with
  | nil => simp
  | cons a t ih =>
    obtain ⟨dt, hdt⟩ := Option.isSome_iff_exists.mp (hp a (List.mem_cons_self a t))
    have hfresh : lookupKey acc dt = none := by
      have h0 := hdisj a (List.mem_cons_self a t)
      rwa [hdt, Option.getD_some] at h0
    simp only [List.foldl_cons, hdt, setKey_of_not_mem a hfresh]
    simp only [List.map_cons, List.nodup_cons] at hnd
    rw [ih (acc ++ [(dt, a)]) (fun b hb => hp b (List.mem_cons_of_mem a hb)) ?_ hnd.2]
    · simp [hdt]
    · intro b hb
      refine lookupKey_append_none (hdisj b (List.mem_cons_of_mem a hb)) ?_
      obtain ⟨db, hdb⟩ := Option.isSome_iff_exists.mp (hp b (List.mem_cons_of_mem a hb))
      have hne2 : db ≠ dt := by
        intro hc
        apply hnd.1
        have : parseDMY b.date = parseDMY a.date := by rw [hdb, hdt, hc]
        exact this ▸ List.mem_map_of_mem (fun x => parseDMY x.date) hb
      rw [hdb, Option.getD_some]
      simp only [lookupKey]
      rw [if_neg (fun h => hne2 h.symm)]

theorem countP_lookup {κ α : Type} [DecidableEq κ] (entries : List (κ × α))
    (days : List κ) (Q : α → Bool)
    (hndd : days.Nodup) (hnde : (entries.map Prod.fst).Nodup)
    (hsub : ∀ k ∈ entries.map Prod.fst, k ∈ days) :
    days.countP (fun k => (Option.map Q (lookupKey entries k)).getD false)
      = entries.countP (fun p => Q p.2) := by
  induction entries generalizing days with
  | nil => simp [lookupKey]
  | cons e rest ih =>
    obtain ⟨k0, a0⟩ := e
    have hk0 : k0 ∈ days := hsub k0 (by simp)
    have hperm := List.perm_cons_erase hk0
    simp only [List.map_cons, List.nodup_cons] at hnde
    have hsub2 : ∀ k ∈ List.map Prod.fst rest, k ∈ days.erase k0 := by
      intro k hk
      exact (List.Nodup.mem_erase_iff hndd).mpr
        ⟨fun hc => hnde.1 (hc ▸ hk), hsub k (List.mem_cons_of_mem _ hk)⟩
    have htail : (days.erase k0).countP
        (fun k => (Option.map Q (lookupKey ((k0, a0) :: rest) k)).getD false)
        = (days.erase k0).countP
        (fun k => (Option.map Q (lookupKey rest k)).getD false) := by
      refine List.countP_congr ?_
      intro k hk
      have hkne : k ≠ k0 := ((List.Nodup.mem_erase_iff hndd).mp hk).1
      have hkne2 : k0 ≠ k := fun h => hkne h.symm
      simp [lookupKey, hkne2]
    rw [List.Perm.countP_eq _ hperm, List.countP_cons, List.countP_cons, htail,
      ih (days.erase k0) (hndd.erase k0) hnde.2 hsub2]
    have hhead : (Option.map Q (lookupKey ((k0, a0) :: rest) k0)).getD false = Q a0 := by
      simp [lookupKey]
    rw [hhead]

/-- C7 as amended: the two exports count differently and only /dnact
holds a threshold. For /dnact the monthly tour-day count is the number of
recorded activities whose destination is non-empty after stripping
whitespace, compared against the fixed threshold 20; for /td (over a
month whose records all parse into that month, one per date) the count is
the number of recorded activities whose title-cased destination has at
least two alphabetic characters and does not contain the word leave
case-insensitively, with no threshold comparison in that code path. -/
theorem tour_day_counts_amended (m y : Nat) (bucket : List Activity)
    (hmy : ∀ a ∈ bucket, inMonthYear a m y = true)
    (hnd : (bucket.map (fun a => parseDMY a.date)).Nodup) :
    td_tour_days m y bucket = bucket.countP td_tour_day_check ∧
    dnact_tour_days bucket = bucket.countP (fun act => pyStrip act.to_village != "") ∧
    dnact_min_required = 20 := by
  refine ⟨?_, rfl, rfl⟩
  have hp : ∀ a ∈ bucket, (parseDMY a.date).isSome = true := by
    intro a ha
    have h0 := hmy a ha
    unfold inMonthYear at h0
    cases hpd : parseDMY a.date with
    | none => rw [hpd] at h0; simp at h0
    | some dt => simp [hpd]
  have hmyd : ∀ a ∈ bucket, ((parseDMY a.date).getD ⟨1, 1, 1⟩).m = m ∧
      ((parseDMY a.date).getD ⟨1, 1, 1⟩).y = y ∧
      1 ≤ ((parseDMY a.date).getD ⟨1, 1, 1⟩).d ∧
      ((parseDMY a.date).getD ⟨1, 1, 1⟩).d ≤ daysInMonth m y := by
    intro a ha
    have h0 := hmy a ha
    unfold inMonthYear at h0
    obtain ⟨dt, hdt⟩ := Option.isSome_iff_exists.mp (hp a ha)
    rw [hdt] at h0
    simp only [Bool.and_eq_true, beq_iff_eq] at h0
    have hb := parseDMY_day_bounds hdt
    rw [hdt, Option.getD_some]
    exact ⟨h0.1, h0.2, hb.1, h0.1 ▸ h0.2 ▸ hb.2⟩
  have habd : td_acts_by_date bucket
      = bucket.map (fun a => ((parseDMY a.date).getD ⟨1, 1, 1⟩, a)) := by
    unfold td_acts_by_date
    simpa using td_abd_aux bucket [] hp (fun a _ => rfl) hnd
  have hndd : ((((List.range (daysInMonth m y)).map (fun i => i + 1)).map
      (fun day => (⟨day, m, y⟩ : PDate)))).Nodup := by
    refine List.Nodup.map ?_ (List.Nodup.map ?_ (List.nodup_range (daysInMonth m y)))
    · intro a b hab
      exact congrArg PDate.d hab
    · intro a b hab
      exact Nat.succ_injective hab
  have hnde : (((bucket.map (fun a => ((parseDMY a.date).getD ⟨1, 1, 1⟩, a))).map
      Prod.fst)).Nodup := by
    rw [List.map_map]
    have h2 : (Prod.fst ∘ fun a => ((parseDMY a.date).getD ⟨1, 1, 1⟩, a))
        = (fun o => Option.getD o ⟨1, 1, 1⟩) ∘ (fun (a : Activity) => parseDMY a.date) := rfl
    rw [h2, ← List.map_map]
    refine List.Nodup.map_on ?_ hnd
    intro x hx y2 hy2 hgd
    rcases List.mem_map.mp hx with ⟨a, ha, rfl⟩
    rcases List.mem_map.mp hy2 with ⟨b, hb, rfl⟩
    obtain ⟨da, hda⟩ := Option.isSome_iff_exists.mp (hp a ha)
    obtain ⟨db, hdb⟩ := Option.isSome_iff_exists.mp (hp b hb)
    rw [hda, hdb] at hgd ⊢
    simp only [Option.getD_some] at hgd
    rw [hgd]
  have hsub : ∀ k ∈ (bucket.map (fun a => ((parseDMY a.date).getD ⟨1, 1, 1⟩, a))).map
      Prod.fst,
      k ∈ ((List.range (daysInMonth m y)).map (fun i => i + 1)).map
        (fun day => (⟨day, m, y⟩ : PDate)) := by
    intro k hk
    rw [List.map_map] at hk
    rcases List.mem_map.mp hk with ⟨a, ha, rfl⟩
    show ((parseDMY a.date).getD ⟨1, 1, 1⟩ : PDate)
        ∈ ((List.range (daysInMonth m y)).map (fun i => i + 1)).map
          (fun day => (⟨day, m, y⟩ : PDate))
    have hd := hmyd a ha
    refine List.mem_map.mpr ⟨((parseDMY a.date).getD ⟨1, 1, 1⟩).d,
      List.mem_map.mpr ⟨((parseDMY a.date).getD ⟨1, 1, 1⟩).d - 1,
        List.mem_range.mpr (by omega), by omega⟩, ?_⟩
    have hm2 := hd.1
    have hy2 := hd.2.1
    rw [← hm2, ← hy2]
  unfold td_tour_days
  rw [habd]
  have hstep : ((((List.range (daysInMonth m y)).map (fun i => i + 1)).map
        (fun day => (⟨day, m, y⟩ : PDate)))).countP
      (fun k =>
        (Option.map td_tour_day_check
          (lookupKey (bucket.map (fun a => ((parseDMY a.date).getD ⟨1, 1, 1⟩, a))) k)).getD
          false)
      = ((List.range (daysInMonth m y)).map (fun i => i + 1)).countP
      (fun day =>
        match lookupKey (bucket.map (fun a => ((parseDMY a.date).getD ⟨1, 1, 1⟩, a)))
            (⟨day, m, y⟩ : PDate) with
        | some act => td_tour_day_check act
        | none => false) := by
    rw [List.countP_map]
    refine List.countP_congr ?_
    intro day _
    cases hl : lookupKey (bucket.map (fun a => ((parseDMY a.date).getD ⟨1, 1, 1⟩, a)))
        (⟨day, m, y⟩ : PDate) with
    | none => simp [Function.comp, hl]
    | some act => simp [Function.comp, hl]
  rw [← hstep]
  refine (countP_lookup (bucket.map fun a => ((parseDMY a.date).getD ⟨1, 1, 1⟩, a))
      (((List.range (daysInMonth m y)).map (fun i => i + 1)).map
        (fun day => (⟨day, m, y⟩ : PDate)))
      td_tour_day_check hndd hnde hsub).trans ?_
  rw [List.countP_map]
  exact List.countP_congr (fun a _ => Iff.rfl)

/-- Witness for C7 at a concrete June 2024 bucket holding one ordinary
destination and one leave destination: /td counts one, /dnact counts
two. -/
theorem tour_day_counts_amended_witness :
    td_tour_days 6 2024
        [⟨"02/06/2024", "X", "Gokul", ""⟩, ⟨"05/06/2024", "X", "Leave", ""⟩]
      = List.countP td_tour_day_check
          [⟨"02/06/2024", "X", "Gokul", ""⟩, ⟨"05/06/2024", "X", "Leave", ""⟩] ∧
    dnact_tour_days [⟨"02/06/2024", "X", "Gokul", ""⟩, ⟨"05/06/2024", "X", "Leave", ""⟩]
      = List.countP (fun (act : Activity) => pyStrip act.to_village != "")
          [⟨"02/06/2024", "X", "Gokul", ""⟩, ⟨"05/06/2024", "X", "Leave", ""⟩] ∧
    dnact_min_required = 20 :=
  tour_day_counts_amended 6 2024
    [⟨"02/06/2024", "X", "Gokul", ""⟩, ⟨"05/06/2024", "X", "Leave", ""⟩]
    (by decide) (by decide)

/-! ## Claim C1: replace-not-append save -/

theorem bucketOkA_parts {ys ms : String} {a : Activity} {dt : PDate}
    (h : bucketOkA ys ms a = true) (hp : parseDMY a.date = some dt) :
    ys = toString dt.y ∧ ms = toString dt.m := by
  unfold bucketOkA at h
  rw [hp] at h
  simp only [Bool.and_eq_true, beq_iff_eq] at h
  exact h

theorem filter_month_buckets (d : String) (dt : PDate) (hd : parseDMY d = some dt)
    (ys : String) (mbs : MonthBuckets)
    (hnd : (mbs.map Prod.fst).Nodup)
    (hok : ∀ mb ∈ mbs, ∀ a ∈ mb.2, bucketOkA ys mb.1 a = true) :
    (mbs.flatMap (fun mb => mb.2)).filter (fun a => a.date == d)
      = ((lookupKey mbs (toString dt.m)).getD []).filter (fun a => a.date == d) := by
  induction mbs with
  | nil => simp [lookupKey]
  | cons mb rest ih =>
    obtain ⟨m0, l⟩ := mb
    simp only [List.map_cons, List.nodup_cons] at hnd
    rw [List.flatMap_cons, List.filter_append]
    by_cases hm : m0 = toString dt.m
    · have hlk : lookupKey ((m0, l) :: rest) (toString dt.m) = some l := by
        simp [lookupKey, hm]
      rw [hlk, Option.getD_some]
      have hrest : (rest.flatMap (fun mb => mb.2)).filter (fun a => a.date == d) = [] := by
        rw [List.filter_eq_nil_iff]
        intro a ha had
        rcases List.mem_flatMap.mp ha with ⟨mb2, hmb2, ha2⟩
        have hok2 := hok mb2 (List.mem_cons_of_mem _ hmb2) a ha2
        have had2 : a.date = d := by simpa using had
        have hps : parseDMY a.date = some dt := had2 ▸ hd
        have hkey := (bucketOkA_parts hok2 hps).2
        exact hnd.1 (hm ▸ hkey ▸ List.mem_map_of_mem Prod.fst hmb2)
      rw [hrest, List.append_nil]
    · have hlk : lookupKey ((m0, l) :: rest) (toString dt.m)
          = lookupKey rest (toString dt.m) := by
        simp [lookupKey, hm]
      have hl0 : l.filter (fun a => a.date == d) = [] := by
        rw [List.filter_eq_nil_iff]
        intro a ha had
        have hok2 := hok (m0, l) (List.mem_cons_self _ _) a ha
        have had2 : a.date = d := by simpa using had
        have hps : parseDMY a.date = some dt := had2 ▸ hd
        exact hm (bucketOkA_parts hok2 hps).2
      rw [hlk, hl0, List.nil_append]
      exact ih hnd.2 (fun mb2 hmb2 => hok mb2 (List.mem_cons_of_mem _ hmb2))

theorem filter_all_acts (acts : Acts) (hwf : actsWf acts) (d : String) (dt : PDate)
    (hd : parseDMY d = some dt) :
    (allActs acts).filter (fun a => a.date == d)
      = (getBucket acts (toString dt.y) (toString dt.m)).filter (fun a => a.date == d) := by
  induction acts with
  | nil => simp [allActs, getBucket, lookupKey]
  | cons ym rest ih =>
    obtain ⟨y0, mbs⟩ := ym
    obtain ⟨hndk, hall⟩ := hwf
    simp only [List.map_cons, List.nodup_cons] at hndk
    have hacts : allActs ((y0, mbs) :: rest)
        = mbs.flatMap (fun mb => mb.2) ++ allActs rest := by
      simp [allActs]
    rw [hacts, List.filter_append]
    by_cases hy : y0 = toString dt.y
    · have hlk : lookupKey ((y0, mbs) :: rest) (toString dt.y) = some mbs := by
        simp [lookupKey, hy]
      have hrest : (allActs rest).filter (fun a => a.date == d) = [] := by
        rw [List.filter_eq_nil_iff]
        intro a ha had
        rcases List.mem_flatMap.mp ha with ⟨ym2, hym2, ha2⟩
        rcases List.mem_flatMap.mp ha2 with ⟨mb2, hmb2, ha3⟩
        have hok2 := (hall ym2 (List.mem_cons_of_mem _ hym2)).2 mb2 hmb2 a ha3
        have had2 : a.date = d := by simpa using had
        have hps : parseDMY a.date = some dt := had2 ▸ hd
        have hkey := (bucketOkA_parts hok2 hps).1
        exact hndk.1 (hy ▸ hkey ▸ List.mem_map_of_mem Prod.fst hym2)
      rw [hrest, List.append_nil]
      unfold getBucket
      rw [hlk, Option.getD_some]
      exact filter_month_buckets d dt hd y0 mbs
        (hall (y0, mbs) (List.mem_cons_self _ _)).1
        (hall (y0, mbs) (List.mem_cons_self _ _)).2
    · have hlk : lookupKey ((y0, mbs) :: rest) (toString dt.y)
          = lookupKey rest (toString dt.y) := by
        simp [lookupKey, hy]
      have hl0 : (mbs.flatMap (fun mb => mb.2)).filter (fun a => a.date == d) = [] := by
        rw [List.filter_eq_nil_iff]
        intro a ha had
        rcases List.mem_flatMap.mp ha with ⟨mb2, hmb2, ha2⟩
        have hok2 := (hall (y0, mbs) (List.mem_cons_self _ _)).2 mb2 hmb2 a ha2
        have had2 : a.date = d := by simpa using had
        have hps : parseDMY a.date = some dt := had2 ▸ hd
        exact hy (bucketOkA_parts hok2 hps).1
      rw [hl0, List.nil_append]
      have hgb : getBucket ((y0, mbs) :: rest) (toString dt.y) (toString dt.m)
          = getBucket rest (toString dt.y) (toString dt.m) := by
        unfold getBucket
        rw [hlk]
      rw [hgb]
      exact ih ⟨hndk.2, fun ym2 hym2 => hall ym2 (List.mem_cons_of_mem _ hym2)⟩

theorem filter_save_bucket (bucket : List Activity) (a : Activity)
    (hc : bucket.countP (fun x => x.date == a.date) ≤ 1) :
    (match bucket.findIdx? (fun (act : Activity) => act.date == a.date) with
      | some i => bucket.set i a
      | none => bucket ++ [a]).filter (fun x => x.date == a.date) = [a] := by
  induction bucket with
  | nil =>
    simp [List.findIdx?]
  | cons x t ih =>
    by_cases hpx : (x.date == a.date) = true
    · rw [List.findIdx?_cons, if_pos hpx]
      have ht0 : t.countP (fun x => x.date == a.date) = 0 := by
        rw [List.countP_cons, if_pos hpx] at hc
        omega
      have htf : t.filter (fun x => x.date == a.date) = [] := by
        rw [List.filter_eq_nil_iff]
        intro b hb
        have := List.countP_eq_zero.mp ht0 b hb
        simpa using this
      simp [List.filter_cons, htf]
    · rw [List.findIdx?_cons, if_neg hpx, List.findIdx?_succ]
      have hct : t.countP (fun x => x.date == a.date) ≤ 1 := by
        rw [List.countP_cons, if_neg hpx] at hc
        omega
      have iht := ih hct
      cases hfi : List.findIdx? (fun (act : Activity) => act.date == a.date) t with
      | none =>
        rw [hfi] at iht
        simp only [hfi, Option.map_none']
        rw [List.cons_append, List.filter_cons, if_neg (by simpa using hpx)]
        exact iht
      | some j =>
        rw [hfi] at iht
        simp only [hfi, Option.map_some']
        have hset : (x :: t).set (j + 1) a = x :: t.set j a := rfl
        rw [hset, List.filter_cons, if_neg (by simpa using hpx)]
        exact iht

theorem actsWf_set (acts : Acts) (a : Activity) (dt : PDate)
    (hdt : parseDMY a.date = some dt) (hwf : actsWf acts) (bucket' : List Activity)
    (hb : ∀ x ∈ bucket',
      x ∈ (lookupKey ((lookupKey acts (toString dt.y)).getD [])
        (toString dt.m)).getD [] ∨ x = a) :
    actsWf (setKey acts (toString dt.y)
      (setKey ((lookupKey acts (toString dt.y)).getD []) (toString dt.m) bucket')) := by
  obtain ⟨hndk, hall⟩ := hwf
  constructor
  · exact nodup_keys_setKey _ _ hndk
  · intro ym hym
    rcases mem_setKey hym with hold | hnew
    · exact hall ym hold
    · subst hnew
      have hmbs : ∀ mb ∈ (lookupKey acts (toString dt.y)).getD [],
          ∀ x ∈ mb.2, bucketOkA (toString dt.y) mb.1 x = true := by
        cases hlk : lookupKey acts (toString dt.y) with
        | none => simp
        | some mbs0 =>
          simp only [Option.getD_some]
          intro mb hmb x hx
          exact (hall (toString dt.y, mbs0) (lookupKey_mem hlk)).2 mb hmb x hx
      have hmnd : (((lookupKey acts (toString dt.y)).getD []).map Prod.fst).Nodup := by
        cases hlk : lookupKey acts (toString dt.y) with
        | none => simp
        | some mbs0 =>
          simp only [Option.getD_some]
          exact (hall (toString dt.y, mbs0) (lookupKey_mem hlk)).1
      refine ⟨nodup_keys_setKey _ _ hmnd, ?_⟩
      intro mb hmb
      rcases mem_setKey hmb with hold2 | hnew2
      · exact hmbs mb hold2
      · subst hnew2
        intro x hx
        rcases hb x hx with hx2 | hx2
        · cases hlk2 : lookupKey ((lookupKey acts (toString dt.y)).getD [])
              (toString dt.m) with
          | none => rw [hlk2] at hx2; simp at hx2
          | some l0 =>
            rw [hlk2, Option.getD_some] at hx2
            exact hmbs (toString dt.m, l0) (lookupKey_mem hlk2) x hx2
        · subst hx2
          unfold bucketOkA
          rw [hdt]
          simp

/-- C1: a save is a replacement, never a duplicate. For a well-formed
nested structure holding at most one record for the date of the incoming
activity (the invariant every earlier save preserves), the save performed
by `save_activity` and `save_activity_callback` leaves exactly one record
for that date in the whole structure, that record is the newly saved one,
and well-formedness is preserved, so arbitrary sequences of saves keep
the one-record-per-date invariant with the latest content. -/
theorem save_activity_replaces (acts acts' : Acts) (a : Activity)
    (hwf : actsWf acts)
    (hdup : countDate acts a.date ≤ 1)
    (hsave : save_activity acts a = some acts') :
    countDate acts' a.date = 1 ∧
    (∀ b ∈ allActs acts', b.date = a.date → b = a) ∧
    actsWf acts' := by
  unfold save_activity at hsave
  cases hdt : parseDMY a.date with
  | none => rw [hdt] at hsave; simp at hsave
  | some dt =>
    rw [hdt] at hsave
    simp only [Option.some.injEq] at hsave
    subst hsave
    have hb : ∀ x ∈ (match ((lookupKey ((lookupKey acts (toString dt.y)).getD [])
          (toString dt.m)).getD []).findIdx?
            (fun (act : Activity) => act.date == a.date) with
        | some i => ((lookupKey ((lookupKey acts (toString dt.y)).getD [])
            (toString dt.m)).getD []).set i a
        | none => ((lookupKey ((lookupKey acts (toString dt.y)).getD [])
            (toString dt.m)).getD []) ++ [a]),
        x ∈ (lookupKey ((lookupKey acts (toString dt.y)).getD [])
          (toString dt.m)).getD [] ∨ x = a := by
      intro x hx
      cases hfi : ((lookupKey ((lookupKey acts (toString dt.y)).getD [])
          (toString dt.m)).getD []).findIdx?
            (fun (act : Activity) => act.date == a.date) with
      | some i =>
        rw [hfi] at hx
        exact List.mem_or_eq_of_mem_set hx
      | none =>
        rw [hfi] at hx
        rcases List.mem_append.mp hx with h2 | h2
        · exact Or.inl h2
        · exact Or.inr (List.mem_singleton.mp h2)
    have hwf2 := actsWf_set acts a dt hdt hwf _ hb
    have hgb : getBucket (setKey acts (toString dt.y)
          (setKey ((lookupKey acts (toString dt.y)).getD []) (toString dt.m)
            (match ((lookupKey ((lookupKey acts (toString dt.y)).getD [])
                (toString dt.m)).getD []).findIdx?
                  (fun (act : Activity) => act.date == a.date) with
              | some i => ((lookupKey ((lookupKey acts (toString dt.y)).getD [])
                  (toString dt.m)).getD []).set i a
              | none => ((lookupKey ((lookupKey acts (toString dt.y)).getD [])
                  (toString dt.m)).getD []) ++ [a])))
          (toString dt.y) (toString dt.m)
        = (match ((lookupKey ((lookupKey acts (toString dt.y)).getD [])
            (toString dt.m)).getD []).findIdx?
              (fun (act : Activity) => act.date == a.date) with
          | some i => ((lookupKey ((lookupKey acts (toString dt.y)).getD [])
              (toString dt.m)).getD []).set i a
          | none => ((lookupKey ((lookupKey acts (toString dt.y)).getD [])
              (toString dt.m)).getD []) ++ [a]) := by
      unfold getBucket
      rw [lookupKey_setKey_self, Option.getD_some, lookupKey_setKey_self, Option.getD_some]
    have hcb : ((lookupKey ((lookupKey acts (toString dt.y)).getD [])
        (toString dt.m)).getD []).countP (fun x => x.date == a.date) ≤ 1 := by
      have h1 := filter_all_acts acts hwf a.date dt hdt
      unfold countDate at hdup
      rw [List.countP_eq_length_filter, h1] at hdup
      unfold getBucket at hdup
      rw [← List.countP_eq_length_filter] at hdup
      exact hdup
    have hfa := filter_all_acts _ hwf2 a.date dt hdt
    rw [hgb] at hfa
    have hfb := filter_save_bucket _ a hcb
    rw [hfb] at hfa
    refine ⟨?_, ?_, hwf2⟩
    · unfold countDate
      rw [List.countP_eq_length_filter, hfa]
      rfl
    · intro b hb2 hbd
      have hmemf : b ∈ [a] := by
        rw [← hfa]
        exact List.mem_filter.mpr ⟨hb2, by simpa using hbd⟩
      exact List.mem_singleton.mp hmemf

/-- Witness for C1: saving a second record for 05/06/2025 into the
fixture structure replaces the stored record rather than appending. -/
theorem save_activity_replaces_witness :
    countDate [("2025", [("6", [⟨"05/06/2025", "HQ", "Rampur", "q2"⟩])])]
        (Activity.date ⟨"05/06/2025", "HQ", "Rampur", "q2"⟩) = 1 ∧
    (∀ b ∈ allActs [("2025", [("6", [⟨"05/06/2025", "HQ", "Rampur", "q2"⟩])])],
      b.date = (Activity.date ⟨"05/06/2025", "HQ", "Rampur", "q2"⟩) →
        b = ⟨"05/06/2025", "HQ", "Rampur", "q2"⟩) ∧
    actsWf [("2025", [("6", [⟨"05/06/2025", "HQ", "Rampur", "q2"⟩])])] :=
  save_activity_replaces actsWit
    [("2025", [("6", [⟨"05/06/2025", "HQ", "Rampur", "q2"⟩])])]
    ⟨"05/06/2025", "HQ", "Rampur", "q2"⟩ (by decide) (by decide) (by decide)
